import Mathlib

/-!
Shallow embedding of the job-scheduling core of the Pokemon TCG dashboard
backend (railway-backend/main.py): the Recent-Activity Log
(add_to_recent_posts / recent_posts_storage), the JobManager job store
(create_job, start_job, stop_job, pause_job, rename_job) and the two
background runners (_run_posting_job, _run_replying_job).

Modelling conventions:
* Python dicts for jobs / running_threads become association lists keyed by
  String, with Python-dict semantics (in-place overwrite on existing key,
  append for a new key).
* Timestamps (datetime.now().isoformat(), int(time.time())) are abstracted
  into an opaque String parameter called now.
* The external Twitter poster is a parameter: for posting jobs a function
  Nat -> PostOutcome giving the outcome of the i-th post_original_tweet call;
  for replying jobs a function Nat -> Option PostOutcome where none models
  the call raising (e.g. post_reply_tweet being None), which the source
  catches in its per-item except block.
* Concurrent stop_job / pause_job / start_job calls mutating a job's status
  while its runner is mid-loop are modelled by a schedule
  Nat -> Option String: before the runner's i-th status check the
  environment may overwrite the job's status.
* time.sleep(65) has no observable effect on the state and is not modelled.
* Jobs are never deleted by any code path, so the runners' lookups of
  self.jobs[job_id] are modelled as total with a presence hypothesis in the
  theorems.
-/

/-- Engagement counters of a posted item (always created all-zero). -/
structure Engagement where
  likes : Nat
  retweets : Nat
  replies : Nat
deriving DecidableEq

/-- The replied_to sub-dict attached to reply entries. -/
structure RepliedTo where
  tweet_id : String
  author : String
  content : String
  url : String
deriving DecidableEq

/-- One entry of recent_posts_storage, as built by add_to_recent_posts. -/
structure Post where
  id : String
  content : String
  type : String
  engagement : Engagement
  timestamp : String
  topics : List String
  tweet_url : String
  tweet_id : String
  replied_to : Option RepliedTo
deriving DecidableEq

/-- The post_data dict passed to add_to_recent_posts.  Option fields model
keys that a call site may omit (Python .get defaults). -/
structure PostData where
  tweet_id : Option String
  content : String
  type : String
  tweet_url : String
  topics : List String
  posted_at : Option String
  replied_to : Option RepliedTo
deriving DecidableEq

/-- One approved content item of a job's queue; fields cover the keys read
by the two runners (.get with default for a missing key). -/
structure ContentItem where
  content : String
  topics : List String
  tweetId : String
  tweetAuthor : String
  originalTweet : String
deriving DecidableEq

/-- The settings dict of a job; approvedContent is the only key the
scheduling core reads. -/
structure Settings where
  approvedContent : List ContentItem
deriving DecidableEq

/-- The stats sub-dict of a job. -/
structure Stats where
  postsToday : Nat
  repliesToday : Nat
  successRate : Nat
deriving DecidableEq

/-- The job_data dict given to create_job (Option models absent keys). -/
structure JobData where
  name : Option String
  type : Option String
  settings : Settings
deriving DecidableEq

/-- A job record as stored in JobManager.jobs. -/
structure Job where
  id : String
  name : String
  type : String
  status : String
  settings : Settings
  createdAt : String
  lastRun : Option String
  nextRun : Option String
  stats : Stats
  approved_content : List ContentItem
deriving DecidableEq

/-- Result of one call to the external poster (post_original_tweet /
post_reply_tweet): a success flag and the platform-assigned id. -/
structure PostOutcome where
  success : Bool
  tweet_id : String
deriving DecidableEq

/-- Global mutable state of the service: JobManager.jobs,
JobManager.running_threads (its key set), the total number of worker
threads ever started, and recent_posts_storage. -/
structure SysState where
  jobs : List (String × Job)
  threads : List String
  spawned : Nat
  recentPosts : List Post
deriving DecidableEq

/-- Python dict lookup self.jobs.get(job_id). -/
def lookupJob : List (String × Job) → String → Option Job
  | [], _ => none
  | p :: rest, k => if p.1 = k then some p.2 else lookupJob rest k

/-- Python dict assignment self.jobs[job_id] = job: overwrite in place if
the key exists, else append (insertion order preserved). -/
def storeSet : List (String × Job) → String → Job → List (String × Job)
  | [], k, v => [(k, v)]
  | p :: rest, k, v => if p.1 = k then (k, v) :: rest else p :: storeSet rest k v

/-- In-place mutation of the job stored under a key (e.g.
self.jobs[job_id]["status"] = ...). -/
def updateEntries : List (String × Job) → String → (Job → Job) → List (String × Job)
  | [], _, _ => []
  | p :: rest, k, f => (if p.1 = k then (p.1, f p.2) else p) :: updateEntries rest k f

/-- Build the post dict of add_to_recent_posts from post_data. -/
def mkPost (now : String) (pd : PostData) : Post :=
  { id := pd.tweet_id.getD ("post_" ++ now)
    content := pd.content
    type := pd.type
    engagement := { likes := 0, retweets := 0, replies := 0 }
    timestamp := pd.posted_at.getD now
    topics := pd.topics
    tweet_url := pd.tweet_url
    tweet_id := pd.tweet_id.getD ""
    replied_to := if pd.type = "reply" then pd.replied_to else none }

/-- add_to_recent_posts: insert the new post at index 0 of
recent_posts_storage, then truncate to the most recent 50. -/
def add_to_recent_posts (storage : List Post) (now : String) (pd : PostData) :
    List Post :=
  let post := mkPost now pd
  let l := post :: storage
  if l.length > 50 then l.take 50 else l

/-- JobManager.create_job: build the job record and store it under job_id
(a Python dict assignment, so an existing record is overwritten). -/
def create_job (s : SysState) (job_id : String) (jd : JobData) (now : String) :
    Job × SysState :=
  let approved := jd.settings.approvedContent
  let job : Job :=
    { id := job_id
      name := jd.name.getD ("Job " ++ job_id)
      type := jd.type.getD "posting"
      status := "stopped"
      settings := jd.settings
      createdAt := now
      lastRun := none
      nextRun := none
      stats := { postsToday := 0, repliesToday := 0, successRate := 100 }
      approved_content := approved }
  (job, { s with jobs := storeSet s.jobs job_id job })

/-- Record a thread.start() plus running_threads[job_id] = thread. -/
def spawnThread (s : SysState) (job_id : String) : SysState :=
  { s with
    spawned := s.spawned + 1
    threads := if job_id ∈ s.threads then s.threads else s.threads ++ [job_id] }

/-- Overwrite the status field of the job stored under job_id. -/
def setJobStatus (s : SysState) (job_id : String) (st : String) : SysState :=
  { s with jobs := updateEntries s.jobs job_id (fun j => { j with status := st }) }

/-- The two status/lastRun writes start_job performs before inspecting the
job type. -/
def markRunning (now : String) : Job → Job :=
  fun j => { j with status := "running", lastRun := some now }

/-- JobManager.start_job.  Returns the Bool result and the new state; the
runner itself executes separately (on the spawned thread). -/
def start_job (s : SysState) (now : String) (job_id : String) : Bool × SysState :=
  match lookupJob s.jobs job_id with
  | none => (false, s)
  | some job =>
    if job.status = "running" then (true, s)
    else
      let s1 : SysState := { s with jobs := updateEntries s.jobs job_id (markRunning now) }
      if job.type = "posting" then (true, spawnThread s1 job_id)
      else if job.type = "replying" then (true, spawnThread s1 job_id)
      else (false, s1)

/-- JobManager.stop_job: flip the status flag; the thread stops itself. -/
def stop_job (s : SysState) (job_id : String) : Bool × SysState :=
  match lookupJob s.jobs job_id with
  | none => (false, s)
  | some _ => (true, setJobStatus s job_id "stopped")

/-- JobManager.pause_job: flip the status flag to paused. -/
def pause_job (s : SysState) (job_id : String) : Bool × SysState :=
  match lookupJob s.jobs job_id with
  | none => (false, s)
  | some _ => (true, setJobStatus s job_id "paused")

/-- JobManager.rename_job: not-found check, then mutate the name field. -/
def rename_job (s : SysState) (job_id : String) (new_name : String) :
    Bool × SysState :=
  match lookupJob s.jobs job_id with
  | none => (false, s)
  | some _ =>
    let setName : Job → Job := fun j => { j with name := new_name }
    (true, { s with jobs := updateEntries s.jobs job_id setName })

/-- External interference on a running job: before the runner's i-th status
check, stop_job / pause_job / a direct status write may overwrite the job's
status.  none means no interference before that check. -/
def applySched (sched : Nat → Option String) (i : Nat) (job_id : String)
    (s : SysState) : SysState :=
  match sched i with
  | none => s
  | some st => setJobStatus s job_id st

/-- The post_data dict built on the simulated-posting branch of
_run_posting_job (TWITTER_POSTER_AVAILABLE false). -/
def simPostData (now : String) (i : Nat) (item : ContentItem) : PostData :=
  let mock_tweet_id := "sim_job_tweet_" ++ now ++ "_" ++ toString i
  { tweet_id := some mock_tweet_id
    content := item.content
    type := "post"
    tweet_url := "https://twitter.com/TradeUpApp/status/" ++ mock_tweet_id
    topics := item.topics
    posted_at := some now
    replied_to := none }

/-- The post_data dict built on the real-API success branch of
_run_posting_job. -/
def realPostData (now : String) (item : ContentItem) (r : PostOutcome) : PostData :=
  { tweet_id := some r.tweet_id
    content := item.content
    type := "post"
    tweet_url := "https://twitter.com/TradeUpApp/status/" ++ r.tweet_id
    topics := item.topics
    posted_at := some now
    replied_to := none }

/-- The post_data dict built on the success branch of _run_replying_job
(no topics key is passed there). -/
def replyPostData (now : String) (item : ContentItem) (r : PostOutcome) : PostData :=
  { tweet_id := some r.tweet_id
    content := item.content
    type := "reply"
    tweet_url := "https://twitter.com/TradeUpApp/status/" ++ r.tweet_id
    topics := []
    posted_at := some now
    replied_to := some
      { tweet_id := item.tweetId
        author := item.tweetAuthor
        content := item.originalTweet
        url := "https://twitter.com/" ++ item.tweetAuthor ++ "/status/" ++ item.tweetId } }

/-- The unconditional per-item stats update of _run_posting_job: postsToday
is incremented and lastRun refreshed after every attempted item, whether or
not the post succeeded. -/
def bumpPosting (now : String) (j : Job) : Job :=
  { j with
    stats := { j.stats with postsToday := j.stats.postsToday + 1 }
    lastRun := some now }

/-- The success-only stats update of _run_replying_job. -/
def bumpReplying (now : String) (j : Job) : Job :=
  { j with
    stats := { j.stats with repliesToday := j.stats.repliesToday + 1 }
    lastRun := some now }

/-- The item loop of _run_posting_job over the remaining queue, with i the
absolute index of the next item.  avail is TWITTER_POSTER_AVAILABLE and
poster gives the outcome of the i-th post_original_tweet call. -/
def run_posting_loop (avail : Bool) (poster : Nat → PostOutcome)
    (sched : Nat → Option String) (now : String) (job_id : String) :
    List ContentItem → Nat → SysState → SysState
  | [], _, s => s
  | item :: rest, i, s =>
    let s1 := applySched sched i job_id s
    match lookupJob s1.jobs job_id with
    | none => s1
    | some job =>
      if job.status = "running" then
        let s2 :=
          if avail then
            if (poster i).success then
              { s1 with recentPosts :=
                  add_to_recent_posts s1.recentPosts now (realPostData now item (poster i)) }
            else s1
          else
            { s1 with recentPosts :=
                add_to_recent_posts s1.recentPosts now (simPostData now i item) }
        let s3 := { s2 with jobs := updateEntries s2.jobs job_id (bumpPosting now) }
        run_posting_loop avail poster sched now job_id rest (i + 1) s3
      else s1

/-- _run_posting_job: snapshot the approved content; empty queue sets the
status to stopped and returns; otherwise run the loop and set the status to
stopped when the loop ends for any reason. -/
def run_posting_job (avail : Bool) (poster : Nat → PostOutcome)
    (sched : Nat → Option String) (now : String) (job_id : String)
    (s : SysState) : SysState :=
  match lookupJob s.jobs job_id with
  | none => s
  | some job =>
    if job.approved_content.length = 0 then setJobStatus s job_id "stopped"
    else
      setJobStatus
        (run_posting_loop avail poster sched now job_id job.approved_content 0 s)
        job_id "stopped"

/-- The item loop of _run_replying_job.  rposter i = none models the i-th
post_reply_tweet call raising (caught by the per-item except block);
some r is a returned outcome.  The log append and the stats update both sit
inside the success branch. -/
def run_replying_loop (rposter : Nat → Option PostOutcome)
    (sched : Nat → Option String) (now : String) (job_id : String) :
    List ContentItem → Nat → SysState → SysState
  | [], _, s => s
  | item :: rest, i, s =>
    let s1 := applySched sched i job_id s
    match lookupJob s1.jobs job_id with
    | none => s1
    | some job =>
      if job.status = "running" then
        let s2 :=
          match rposter i with
          | none => s1
          | some r =>
            if r.success then
              let sl := { s1 with recentPosts :=
                  add_to_recent_posts s1.recentPosts now (replyPostData now item r) }
              { sl with jobs := updateEntries sl.jobs job_id (bumpReplying now) }
            else s1
        run_replying_loop rposter sched now job_id rest (i + 1) s2
      else s1

/-- _run_replying_job: no empty-queue early return; run the loop and set
the status to stopped when it ends. -/
def run_replying_job (rposter : Nat → Option PostOutcome)
    (sched : Nat → Option String) (now : String) (job_id : String)
    (s : SysState) : SysState :=
  match lookupJob s.jobs job_id with
  | none => s
  | some job =>
    setJobStatus
      (run_replying_loop rposter sched now job_id job.approved_content 0 s)
      job_id "stopped"

/-- The log entry (if any) produced by the i-th iteration of the posting
loop: on the simulated branch always an entry, on the real branch only when
the poster reports success. -/
def postEntry (avail : Bool) (poster : Nat → PostOutcome) (now : String)
    (i : Nat) (item : ContentItem) : Option Post :=
  if avail then
    if (poster i).success then some (mkPost now (realPostData now item (poster i)))
    else none
  else some (mkPost now (simPostData now i item))

/-- The log entries a full posting run over items (starting at absolute
index i) prepends to the log, most recent first (so the entry of the first
processed item comes last). -/
def entriesRevFrom (avail : Bool) (poster : Nat → PostOutcome) (now : String) :
    Nat → List ContentItem → List Post
  | _, [] => []
  | i, item :: rest =>
    entriesRevFrom avail poster now (i + 1) rest ++ (postEntry avail poster now i item).toList

/-- A schedule with a single external status write st before the k-th
status check. -/
def pauseSched (k : Nat) (st : String) : Nat → Option String :=
  fun i => if i = k then some st else none

/-- Replace every external write of paused by a write of stopped. -/
def pausedToStopped (sched : Nat → Option String) : Nat → Option String :=
  fun i =>
    match sched i with
    | none => none
    | some st => some (if st = "paused" then "stopped" else st)

/-- The effect of one posting-loop iteration on recent_posts_storage. -/
def newLog (avail : Bool) (poster : Nat → PostOutcome) (now : String) (i : Nat)
    (item : ContentItem) (L : List Post) : List Post :=
  if avail then
    if (poster i).success then add_to_recent_posts L now (realPostData now item (poster i))
    else L
  else add_to_recent_posts L now (simPostData now i item)

lemma lookup_storeSet_self (m : List (String × Job)) (k : String) (v : Job) :
    lookupJob (storeSet m k v) k = some v := by
  induction m with
  | nil => simp [storeSet, lookupJob]
  | cons p rest ih =>
    by_cases h : p.1 = k
    · simp [storeSet, lookupJob, h]
    · simp [storeSet, lookupJob, h, ih]

lemma lookup_storeSet_other (m : List (String × Job)) (k k' : String) (v : Job)
    (h : k' ≠ k) : lookupJob (storeSet m k v) k' = lookupJob m k' := by
  induction m with
  | nil => simp [storeSet, lookupJob, Ne.symm h]
  | cons p rest ih =>
    by_cases hp : p.1 = k
    · simp [storeSet, lookupJob, hp, Ne.symm h]
    · simp [storeSet, lookupJob, hp, ih]

lemma lookup_updateEntries_self (m : List (String × Job)) (k : String)
    (f : Job → Job) : lookupJob (updateEntries m k f) k = (lookupJob m k).map f := by
  induction m with
  | nil => simp [updateEntries, lookupJob]
  | cons p rest ih =>
    by_cases h : p.1 = k
    · simp [updateEntries, lookupJob, h]
    · simp [updateEntries, lookupJob, h, ih]

lemma lookup_updateEntries_other (m : List (String × Job)) (k k' : String)
    (f : Job → Job) (h : k' ≠ k) :
    lookupJob (updateEntries m k f) k' = lookupJob m k' := by
  induction m with
  | nil => simp [updateEntries, lookupJob]
  | cons p rest ih =>
    by_cases hp : p.1 = k
    · simpa [updateEntries, lookupJob, hp, Ne.symm h] using ih
    · simp [updateEntries, lookupJob, hp, ih]

lemma updateEntries_updateEntries (m : List (String × Job)) (k : String)
    (f g : Job → Job) :
    updateEntries (updateEntries m k f) k g = updateEntries m k (fun j => g (f j)) := by
  induction m with
  | nil => simp [updateEntries]
  | cons p rest ih =>
    by_cases h : p.1 = k
    · simp [updateEntries, h, ih]
    · simp [updateEntries, h, ih]

lemma setJobStatus_recentPosts (s : SysState) (k st : String) :
    (setJobStatus s k st).recentPosts = s.recentPosts := rfl

lemma setJobStatus_threads (s : SysState) (k st : String) :
    (setJobStatus s k st).threads = s.threads := rfl

lemma setJobStatus_spawned (s : SysState) (k st : String) :
    (setJobStatus s k st).spawned = s.spawned := rfl

lemma setJobStatus_setJobStatus (s : SysState) (k a b : String) :
    setJobStatus (setJobStatus s k a) k b = setJobStatus s k b := by
  simp only [setJobStatus, updateEntries_updateEntries]

lemma lookup_setJobStatus_self (s : SysState) (k st : String) :
    lookupJob (setJobStatus s k st).jobs k
      = (lookupJob s.jobs k).map (fun j => { j with status := st }) := by
  simp [setJobStatus, lookup_updateEntries_self]

lemma take_take_of_le {α : Type} (A B : List α) (n m : Nat) (h : m ≤ n) :
    (A ++ B.take n).take m = (A ++ B).take m := by
  induction A generalizing m with
  | nil =>
    simp only [List.nil_append, List.take_take]
    rw [Nat.min_eq_left h]
  | cons a A ih =>
    cases m with
    | zero => simp
    | succ m' =>
      have hm : m' ≤ n := Nat.le_of_succ_le h
      simp [List.take_succ_cons, ih m' hm]

lemma append_take_take {α : Type} (A B : List α) (n : Nat) :
    (A ++ B.take n).take n = (A ++ B).take n :=
  take_take_of_le A B n n (Nat.le_refl n)

lemma cap_as_take (storage : List Post) (now : String) (pd : PostData)
    (_h : storage.length ≤ 50) :
    add_to_recent_posts storage now pd = (mkPost now pd :: storage).take 50 := by
  unfold add_to_recent_posts
  by_cases hl : (mkPost now pd :: storage).length > 50
  · simp [hl]
  · have : (mkPost now pd :: storage).length ≤ 50 := Nat.le_of_not_lt hl
    simp [hl, List.take_of_length_le this]

lemma cap_length (storage : List Post) (now : String) (pd : PostData)
    (h : storage.length ≤ 50) :
    (add_to_recent_posts storage now pd).length ≤ 50 := by
  rw [cap_as_take storage now pd h]
  simp

/-- A content item holding only text, as the dashboard submits for posting
jobs. -/
def exItem (c : String) : ContentItem :=
  { content := c, topics := [], tweetId := "", tweetAuthor := "", originalTweet := "" }

/-- Fixture: the create-posting-job request of the spec scenario, with
approved items A, B, C. -/
def exJD : JobData :=
  { name := some "Demo", type := some "posting"
    settings := { approvedContent := [exItem "A", exItem "B", exItem "C"] } }

/-- Fixture: an external poster that always succeeds. -/
def exPoster : Nat → PostOutcome :=
  fun i => { success := true, tweet_id := "tid_" ++ toString i }

/-- Fixture: an external poster failing exactly on the second item. -/
def exPosterFailSecond : Nat → PostOutcome :=
  fun i => { success := if i = 1 then false else true, tweet_id := "tid_" ++ toString i }

/-- Fixture: the empty initial state (fresh process). -/
def exEmpty : SysState :=
  { jobs := [], threads := [], spawned := 0, recentPosts := [] }

/-- Fixture: a stored job record with the given status and type and an
empty queue. -/
def exJob (st ty : String) : Job :=
  { id := "j1", name := "N", type := ty, status := st
    settings := { approvedContent := [] }
    createdAt := "t0", lastRun := none, nextRun := none
    stats := { postsToday := 0, repliesToday := 0, successRate := 100 }
    approved_content := [] }

/-- Fixture: a state holding exactly the job j1. -/
def exStateWith (j : Job) : SysState :=
  { jobs := [("j1", j)], threads := [], spawned := 0, recentPosts := [] }

/-- Fixture: a running posting job with queue A, B, C. -/
def exJobQ : Job :=
  { exJob "running" "posting" with
    approved_content := [exItem "A", exItem "B", exItem "C"] }

lemma newLog_eq (avail : Bool) (poster : Nat → PostOutcome) (now : String)
    (i : Nat) (item : ContentItem) (L : List Post) (hL : L.length ≤ 50) :
    newLog avail poster now i item L
      = ((postEntry avail poster now i item).toList ++ L).take 50 := by
  by_cases hav : avail
  · by_cases hsucc : (poster i).success
    · simp [newLog, postEntry, hav, hsucc, cap_as_take L now _ hL]
    · simp [newLog, postEntry, hav, hsucc, List.take_of_length_le hL]
  · simp [newLog, postEntry, hav, cap_as_take L now _ hL]

lemma newLog_length (avail : Bool) (poster : Nat → PostOutcome) (now : String)
    (i : Nat) (item : ContentItem) (L : List Post) (hL : L.length ≤ 50) :
    (newLog avail poster now i item L).length ≤ 50 := by
  rw [newLog_eq avail poster now i item L hL]
  simp

lemma run_posting_loop_cons (avail : Bool) (poster : Nat → PostOutcome)
    (sched : Nat → Option String) (now jid : String) (item : ContentItem)
    (rest : List ContentItem) (i : Nat) (s : SysState) (job : Job)
    (hs : sched i = none) (hj : lookupJob s.jobs jid = some job)
    (hst : job.status = "running") :
    run_posting_loop avail poster sched now jid (item :: rest) i s
      = run_posting_loop avail poster sched now jid rest (i + 1)
          { s with recentPosts := newLog avail poster now i item s.recentPosts
                   jobs := updateEntries s.jobs jid (bumpPosting now) } := by
  by_cases hav : avail
  · by_cases hsucc : (poster i).success
    · simp [run_posting_loop, applySched, hs, hj, hst, newLog, hav, hsucc]
    · simp [run_posting_loop, applySched, hs, hj, hst, newLog, hav, hsucc]
  · simp [run_posting_loop, applySched, hs, hj, hst, newLog, hav]

lemma run_posting_loop_none (avail : Bool) (poster : Nat → PostOutcome)
    (now jid : String) :
    ∀ (items : List ContentItem) (i : Nat) (s : SysState) (job : Job),
      lookupJob s.jobs jid = some job →
      job.status = "running" →
      s.recentPosts.length ≤ 50 →
      (run_posting_loop avail poster (fun _ => none) now jid items i s).recentPosts
          = (entriesRevFrom avail poster now i items ++ s.recentPosts).take 50
        ∧ ∃ jf,
            lookupJob (run_posting_loop avail poster (fun _ => none) now jid items i s).jobs jid
              = some jf
            ∧ jf.status = "running"
            ∧ jf.stats.postsToday = job.stats.postsToday + items.length
            ∧ jf.stats.repliesToday = job.stats.repliesToday
            ∧ jf.stats.successRate = job.stats.successRate := by
  intro items
  induction items with
  | nil =>
    intro i s job hj hst hL
    refine ⟨by simp [run_posting_loop, entriesRevFrom, List.take_of_length_le hL],
      job, by simp [run_posting_loop, hj], hst, by simp, rfl, rfl⟩
  | cons item rest ih =>
    intro i s job hj hst hL
    rw [run_posting_loop_cons avail poster (fun _ => none) now jid item rest i s job rfl hj hst]
    set s3 : SysState :=
      { s with recentPosts := newLog avail poster now i item s.recentPosts
               jobs := updateEntries s.jobs jid (bumpPosting now) } with hs3
    have hj3 : lookupJob s3.jobs jid = some (bumpPosting now job) := by
      simp [hs3, lookup_updateEntries_self, hj]
    have hst3 : (bumpPosting now job).status = "running" := by
      simp [bumpPosting, hst]
    have hL3 : s3.recentPosts.length ≤ 50 :=
      newLog_length avail poster now i item s.recentPosts hL
    obtain ⟨hlog, jf, hjf, hjfst, hposts, hreplies, hrate⟩ :=
      ih (i + 1) s3 (bumpPosting now job) hj3 hst3 hL3
    refine ⟨?_, jf, hjf, hjfst, ?_, ?_, ?_⟩
    · rw [hlog]
      have hs3log : s3.recentPosts
          = ((postEntry avail poster now i item).toList ++ s.recentPosts).take 50 :=
        newLog_eq avail poster now i item s.recentPosts hL
      rw [hs3log, append_take_take, entriesRevFrom]
      rw [List.append_assoc]
    · simp only [bumpPosting] at hposts
      simp only [List.length_cons]
      omega
    · simpa [bumpPosting] using hreplies
    · simpa [bumpPosting] using hrate

lemma run_posting_job_none (avail : Bool) (poster : Nat → PostOutcome)
    (now jid : String) (s : SysState) (job : Job)
    (hj : lookupJob s.jobs jid = some job) (hst : job.status = "running")
    (hL : s.recentPosts.length ≤ 50) :
    (run_posting_job avail poster (fun _ => none) now jid s).recentPosts
        = (entriesRevFrom avail poster now 0 job.approved_content ++ s.recentPosts).take 50
      ∧ ∃ jf,
          lookupJob (run_posting_job avail poster (fun _ => none) now jid s).jobs jid
            = some jf
          ∧ jf.status = "stopped"
          ∧ jf.stats.postsToday = job.stats.postsToday + job.approved_content.length
          ∧ jf.stats.repliesToday = job.stats.repliesToday
          ∧ jf.stats.successRate = job.stats.successRate := by
  by_cases hlen : job.approved_content.length = 0
  · have hnil : job.approved_content = [] := List.eq_nil_of_length_eq_zero hlen
    constructor
    · simp [run_posting_job, hj, hlen, hnil, entriesRevFrom,
        setJobStatus_recentPosts, List.take_of_length_le hL]
    · refine ⟨{ job with status := "stopped" }, ?_, rfl, by simp [hlen], rfl, rfl⟩
      simp [run_posting_job, hj, hlen, lookup_setJobStatus_self]
  · obtain ⟨hlog, jf, hjf, hjfst, hp, hr, hsr⟩ :=
      run_posting_loop_none avail poster now jid job.approved_content 0 s job hj hst hL
    have hred : run_posting_job avail poster (fun _ => none) now jid s
        = setJobStatus
            (run_posting_loop avail poster (fun _ => none) now jid job.approved_content 0 s)
            jid "stopped" := by
      simp [run_posting_job, hj, hlen]
    constructor
    · rw [hred, setJobStatus_recentPosts, hlog]
    · refine ⟨{ jf with status := "stopped" }, ?_, rfl, hp, hr, hsr⟩
      rw [hred, lookup_setJobStatus_self, hjf]
      rfl

lemma entriesRevFrom_content_all_success (poster : Nat → PostOutcome) (now : String)
    (hsucc : ∀ j, (poster j).success = true) :
    ∀ (items : List ContentItem) (i : Nat),
      (entriesRevFrom true poster now i items).map (fun p => p.content)
        = (items.map (fun it => it.content)).reverse := by
  intro items
  induction items with
  | nil => intro i; simp [entriesRevFrom]
  | cons item rest ih =>
    intro i
    simp [entriesRevFrom, postEntry, hsucc i, ih (i + 1), mkPost, realPostData]

lemma entriesRevFrom_length_all_success (poster : Nat → PostOutcome) (now : String)
    (hsucc : ∀ j, (poster j).success = true) :
    ∀ (items : List ContentItem) (i : Nat),
      (entriesRevFrom true poster now i items).length = items.length := by
  intro items
  induction items with
  | nil => intro i; simp [entriesRevFrom]
  | cons item rest ih =>
    intro i
    simp [entriesRevFrom, postEntry, hsucc i, ih (i + 1)]

lemma entriesRevFrom_type_post (avail : Bool) (poster : Nat → PostOutcome)
    (now : String) :
    ∀ (items : List ContentItem) (i : Nat) (p : Post),
      p ∈ entriesRevFrom avail poster now i items → p.type = "post" := by
  intro items
  induction items with
  | nil => intro i p hp; simp [entriesRevFrom] at hp
  | cons item rest ih =>
    intro i p hp
    rw [entriesRevFrom, List.mem_append] at hp
    rcases hp with hp | hp
    · exact ih (i + 1) p hp
    · by_cases hav : avail
      · by_cases hsc : (poster i).success
        · simp [postEntry, hav, hsc] at hp
          rw [hp]
          rfl
        · simp [postEntry, hav, hsc] at hp
      · simp [postEntry, hav] at hp
        rw [hp]
        rfl

lemma start_job_spawn_posting (s : SysState) (now jid : String) (job : Job)
    (hj : lookupJob s.jobs jid = some job) (hst : ¬job.status = "running")
    (hty : job.type = "posting") :
    start_job s now jid
      = (true, spawnThread { s with jobs := updateEntries s.jobs jid (markRunning now) } jid) := by
  simp [start_job, hj, hst, hty]

/-- C1: a posting job created with N queued items and then started, whose
run completes with every post succeeding, prepends exactly N new entries to
the Recent-Activity Log in queue order (last queued item at the front),
each tagged as a post, and ends with stats.postsToday = N and status
stopped. -/
theorem C1_posting_job_completes_all_posted (poster : Nat → PostOutcome)
    (now jid : String) (jd : JobData) (s0 : SysState) (items : List ContentItem)
    (hitems : jd.settings.approvedContent = items)
    (hty : jd.type = some "posting")
    (hsucc : ∀ j, (poster j).success = true)
    (hcap : s0.recentPosts.length + items.length ≤ 50) :
    (start_job (create_job s0 jid jd now).2 now jid).1 = true
    ∧ (run_posting_job true poster (fun _ => none) now jid
          (start_job (create_job s0 jid jd now).2 now jid).2).recentPosts
        = entriesRevFrom true poster now 0 items ++ s0.recentPosts
    ∧ (entriesRevFrom true poster now 0 items).map (fun p => p.content)
        = (items.map (fun it => it.content)).reverse
    ∧ (entriesRevFrom true poster now 0 items).length = items.length
    ∧ (∀ p ∈ entriesRevFrom true poster now 0 items, p.type = "post")
    ∧ (lookupJob (run_posting_job true poster (fun _ => none) now jid
          (start_job (create_job s0 jid jd now).2 now jid).2).jobs jid).map
        (fun j => j.stats.postsToday) = some items.length
    ∧ (lookupJob (run_posting_job true poster (fun _ => none) now jid
          (start_job (create_job s0 jid jd now).2 now jid).2).jobs jid).map
        (fun j => j.status) = some "stopped" := by
  have hlook1 : lookupJob (create_job s0 jid jd now).2.jobs jid
      = some (create_job s0 jid jd now).1 :=
    lookup_storeSet_self s0.jobs jid (create_job s0 jid jd now).1
  have hst0 : ¬(create_job s0 jid jd now).1.status = "running" := by
    simp [create_job]
  have hty0 : (create_job s0 jid jd now).1.type = "posting" := by
    simp [create_job, hty]
  have hstart := start_job_spawn_posting (create_job s0 jid jd now).2 now jid
    (create_job s0 jid jd now).1 hlook1 hst0 hty0
  have hres : (start_job (create_job s0 jid jd now).2 now jid).1 = true := by
    rw [hstart]
  have hlook2 : lookupJob (start_job (create_job s0 jid jd now).2 now jid).2.jobs jid
      = some (markRunning now (create_job s0 jid jd now).1) := by
    rw [hstart]
    show lookupJob (updateEntries (create_job s0 jid jd now).2.jobs jid (markRunning now)) jid
      = some (markRunning now (create_job s0 jid jd now).1)
    rw [lookup_updateEntries_self, hlook1]
    rfl
  have hst2 : (markRunning now (create_job s0 jid jd now).1).status = "running" := rfl
  have hac2 : (markRunning now (create_job s0 jid jd now).1).approved_content = items := by
    show jd.settings.approvedContent = items
    exact hitems
  have hrp2 : (start_job (create_job s0 jid jd now).2 now jid).2.recentPosts
      = s0.recentPosts := by
    rw [hstart]
    rfl
  have hL2 : (start_job (create_job s0 jid jd now).2 now jid).2.recentPosts.length ≤ 50 := by
    rw [hrp2]
    omega
  obtain ⟨hlog, jf, hjf, hjfst, hp, hr, hsr⟩ :=
    run_posting_job_none true poster now jid
      (start_job (create_job s0 jid jd now).2 now jid).2
      (markRunning now (create_job s0 jid jd now).1) hlook2 hst2 hL2
  have hElen : (entriesRevFrom true poster now 0 items).length = items.length :=
    entriesRevFrom_length_all_success poster now hsucc items 0
  refine ⟨hres, ?_, entriesRevFrom_content_all_success poster now hsucc items 0, hElen,
    fun p hp' => entriesRevFrom_type_post true poster now items 0 p hp', ?_, ?_⟩
  · rw [hlog, hac2, hrp2]
    apply List.take_of_length_le
    rw [List.length_append, hElen]
    omega
  · rw [hjf]
    have hp0 : (markRunning now (create_job s0 jid jd now).1).stats.postsToday = 0 := rfl
    rw [Option.map_some']
    rw [hp, hp0, hac2]
    simp
  · rw [hjf, Option.map_some', hjfst]

/-- Witness for C1: the spec scenario itself — items A, B, C, all posts
succeeding, ending with postsToday = 3 and log contents C, B, A. -/
theorem C1_witness :
    (lookupJob (run_posting_job true exPoster (fun _ => none) "t0" "job1"
        (start_job (create_job exEmpty "job1" exJD "t0").2 "t0" "job1").2).jobs "job1").map
      (fun j => j.stats.postsToday) = some 3
    ∧ (run_posting_job true exPoster (fun _ => none) "t0" "job1"
        (start_job (create_job exEmpty "job1" exJD "t0").2 "t0" "job1").2).recentPosts.map
      (fun p => p.content) = ["C", "B", "A"] := by
  constructor
  · exact (C1_posting_job_completes_all_posted exPoster "t0" "job1" exJD exEmpty
      exJD.settings.approvedContent rfl rfl (fun j => rfl) (by decide)).2.2.2.2.2.1
  · decide

/-- C3: every append to the Recent-Activity Log puts the new item at the
front; starting from a log within the 50-entry cap the result stays within
the cap; and the result is an initial segment of the new item followed by
the old log, so any eviction drops only from the back and the surviving
entries keep their most-recent-first order. -/
theorem C3_log_append_capped (storage : List Post) (now : String) (pd : PostData)
    (h : storage.length ≤ 50) :
    (add_to_recent_posts storage now pd).head? = some (mkPost now pd)
    ∧ (add_to_recent_posts storage now pd).length ≤ 50
    ∧ ∃ t, mkPost now pd :: storage = add_to_recent_posts storage now pd ++ t := by
  refine ⟨?_, cap_length storage now pd h, ?_⟩
  · rw [cap_as_take storage now pd h]
    have h50 : (mkPost now pd :: storage).take 50 = mkPost now pd :: storage.take 49 := rfl
    rw [h50]
    rfl
  · rw [cap_as_take storage now pd h]
    exact ⟨(mkPost now pd :: storage).drop 50, (List.take_append_drop 50 _).symm⟩

/-- Witness for C3 at a concrete log and item. -/
theorem C3_witness :
    ([] : List Post).length ≤ 50
    ∧ (add_to_recent_posts [] "t0" (realPostData "t0" (exItem "A") (exPoster 0))).head?
        = some (mkPost "t0" (realPostData "t0" (exItem "A") (exPoster 0))) :=
  ⟨by decide,
    (C3_log_append_capped [] "t0" (realPostData "t0" (exItem "A") (exPoster 0)) (by decide)).1⟩

/-- C4: start_job on a job whose status is already running returns success
and leaves the whole state unchanged — same status, no second worker
thread. -/
theorem C4_start_running_idempotent (s : SysState) (now jid : String) (job : Job)
    (hj : lookupJob s.jobs jid = some job) (hst : job.status = "running") :
    start_job s now jid = (true, s) := by
  simp [start_job, hj, hst]

/-- Witness for C4 on a stored running job. -/
theorem C4_witness :
    start_job (exStateWith (exJob "running" "posting")) "t1" "j1"
      = (true, exStateWith (exJob "running" "posting")) :=
  C4_start_running_idempotent (exStateWith (exJob "running" "posting")) "t1" "j1"
    (exJob "running" "posting") (by decide) rfl

/-- C6: a posting runner started on a job with an empty queue sets the
status to stopped and exits: the log is untouched, the job record changes
only in its status, and no other job is affected. -/
theorem C6_empty_queue_stops (avail : Bool) (poster : Nat → PostOutcome)
    (sched : Nat → Option String) (now jid : String) (s : SysState) (job : Job)
    (hj : lookupJob s.jobs jid = some job) (hempty : job.approved_content = []) :
    (run_posting_job avail poster sched now jid s).recentPosts = s.recentPosts
    ∧ lookupJob (run_posting_job avail poster sched now jid s).jobs jid
        = some { job with status := "stopped" }
    ∧ ∀ k, ¬k = jid → lookupJob (run_posting_job avail poster sched now jid s).jobs k
        = lookupJob s.jobs k := by
  have hred : run_posting_job avail poster sched now jid s
      = setJobStatus s jid "stopped" := by
    simp [run_posting_job, hj, hempty]
  refine ⟨by rw [hred, setJobStatus_recentPosts], ?_, ?_⟩
  · rw [hred, lookup_setJobStatus_self, hj]
    rfl
  · intro k hk
    rw [hred]
    exact lookup_updateEntries_other s.jobs jid k _ hk

/-- Witness for C6: an empty-queue posting job ends stopped with nothing
logged. -/
theorem C6_witness :
    (run_posting_job true exPoster (fun _ => none) "t1" "j1"
        (exStateWith (exJob "running" "posting"))).recentPosts
      = (exStateWith (exJob "running" "posting")).recentPosts
    ∧ lookupJob (run_posting_job true exPoster (fun _ => none) "t1" "j1"
        (exStateWith (exJob "running" "posting"))).jobs "j1"
      = some { exJob "running" "posting" with status := "stopped" } :=
  ⟨(C6_empty_queue_stops true exPoster (fun _ => none) "t1" "j1"
      (exStateWith (exJob "running" "posting")) (exJob "running" "posting")
      (by decide) rfl).1,
   (C6_empty_queue_stops true exPoster (fun _ => none) "t1" "j1"
      (exStateWith (exJob "running" "posting")) (exJob "running" "posting")
      (by decide) rfl).2.1⟩

/-- C7: create_job never fails: it builds a job with status stopped, zeroed
postsToday/repliesToday counters and exactly the supplied queued items, and
stores it under the given id — overwriting any previous record under that
id (last write wins) while leaving every other job and the log unchanged. -/
theorem C7_create_job_spec (s : SysState) (jid : String) (jd : JobData) (now : String) :
    (create_job s jid jd now).1.status = "stopped"
    ∧ (create_job s jid jd now).1.stats.postsToday = 0
    ∧ (create_job s jid jd now).1.stats.repliesToday = 0
    ∧ (create_job s jid jd now).1.approved_content = jd.settings.approvedContent
    ∧ lookupJob (create_job s jid jd now).2.jobs jid = some (create_job s jid jd now).1
    ∧ (∀ k, ¬k = jid → lookupJob (create_job s jid jd now).2.jobs k = lookupJob s.jobs k)
    ∧ (create_job s jid jd now).2.recentPosts = s.recentPosts :=
  ⟨rfl, rfl, rfl, rfl, lookup_storeSet_self s.jobs jid (create_job s jid jd now).1,
   fun k hk => lookup_storeSet_other s.jobs jid k (create_job s jid jd now).1 hk, rfl⟩

/-- Witness for C7: creating over an existing id overwrites it (last write
wins) and the new record starts stopped with zero counters. -/
theorem C7_witness :
    lookupJob (create_job (exStateWith (exJob "running" "replying")) "j1" exJD "t0").2.jobs "j1"
      = some (create_job (exStateWith (exJob "running" "replying")) "j1" exJD "t0").1
    ∧ (create_job (exStateWith (exJob "running" "replying")) "j1" exJD "t0").1.status
      = "stopped" :=
  ⟨(C7_create_job_spec (exStateWith (exJob "running" "replying")) "j1" exJD "t0").2.2.2.2.1,
   (C7_create_job_spec (exStateWith (exJob "running" "replying")) "j1" exJD "t0").1⟩

/-- C8: rename_job on an absent id reports not-found and mutates nothing;
on a present id it returns success and changes exactly the name field of
that job, leaving its other fields, all other jobs, the log and the thread
bookkeeping unchanged. -/
theorem C8_rename_job_spec (s : SysState) (jid n : String) :
    (lookupJob s.jobs jid = none → rename_job s jid n = (false, s))
    ∧ ∀ job, lookupJob s.jobs jid = some job →
        (rename_job s jid n).1 = true
        ∧ lookupJob (rename_job s jid n).2.jobs jid = some { job with name := n }
        ∧ (∀ k, ¬k = jid → lookupJob (rename_job s jid n).2.jobs k = lookupJob s.jobs k)
        ∧ (rename_job s jid n).2.recentPosts = s.recentPosts
        ∧ (rename_job s jid n).2.threads = s.threads
        ∧ (rename_job s jid n).2.spawned = s.spawned := by
  constructor
  · intro h
    simp [rename_job, h]
  · intro job hj
    have hred : rename_job s jid n
        = (true, { s with jobs := updateEntries s.jobs jid (fun j => { j with name := n }) }) := by
      simp [rename_job, hj]
    refine ⟨by rw [hred], ?_, ?_, by rw [hred], by rw [hred], by rw [hred]⟩
    · rw [hred]
      show lookupJob (updateEntries s.jobs jid (fun j => { j with name := n })) jid = _
      rw [lookup_updateEntries_self, hj]
      rfl
    · intro k hk
      rw [hred]
      exact lookup_updateEntries_other s.jobs jid k _ hk

/-- Witness for C8: renaming a nonexistent id is rejected with no state
change; renaming an existing id succeeds. -/
theorem C8_witness :
    rename_job (exStateWith (exJob "stopped" "posting")) "nope" "New"
      = (false, exStateWith (exJob "stopped" "posting"))
    ∧ (rename_job (exStateWith (exJob "stopped" "posting")) "j1" "New").1 = true :=
  ⟨(C8_rename_job_spec (exStateWith (exJob "stopped" "posting")) "nope" "New").1 (by decide),
   ((C8_rename_job_spec (exStateWith (exJob "stopped" "posting")) "j1" "New").2
      (exJob "stopped" "posting") (by decide)).1⟩

/-- C10: start_job on an existing, not-running job of unknown type returns
failure, but only after having already marked the job running and stamped
lastRun; no worker thread is started, so the job is left marked running
with no runner attached. -/
theorem C10_start_unknown_type_not_atomic (s : SysState) (now jid : String) (job : Job)
    (hj : lookupJob s.jobs jid = some job) (hst : ¬job.status = "running")
    (hty1 : ¬job.type = "posting") (hty2 : ¬job.type = "replying") :
    (start_job s now jid).1 = false
    ∧ lookupJob (start_job s now jid).2.jobs jid
        = some { job with status := "running", lastRun := some now }
    ∧ (start_job s now jid).2.threads = s.threads
    ∧ (start_job s now jid).2.spawned = s.spawned
    ∧ (start_job s now jid).2.recentPosts = s.recentPosts := by
  have hred : start_job s now jid
      = (false, { s with jobs := updateEntries s.jobs jid (markRunning now) }) := by
    simp [start_job, hj, hst, hty1, hty2]
  refine ⟨by rw [hred], ?_, by rw [hred], by rw [hred], by rw [hred]⟩
  · rw [hred]
    show lookupJob (updateEntries s.jobs jid (markRunning now)) jid = _
    rw [lookup_updateEntries_self, hj]
    rfl

/-- Witness for C10 on a stored job of type experiment. -/
theorem C10_witness :
    (start_job (exStateWith (exJob "stopped" "experiment")) "t1" "j1").1 = false
    ∧ lookupJob (start_job (exStateWith (exJob "stopped" "experiment")) "t1" "j1").2.jobs "j1"
      = some { exJob "stopped" "experiment" with status := "running", lastRun := some "t1" }
    ∧ (start_job (exStateWith (exJob "stopped" "experiment")) "t1" "j1").2.spawned
      = (exStateWith (exJob "stopped" "experiment")).spawned :=
  ⟨(C10_start_unknown_type_not_atomic (exStateWith (exJob "stopped" "experiment")) "t1" "j1"
      (exJob "stopped" "experiment") (by decide) (by decide) (by decide) (by decide)).1,
   (C10_start_unknown_type_not_atomic (exStateWith (exJob "stopped" "experiment")) "t1" "j1"
      (exJob "stopped" "experiment") (by decide) (by decide) (by decide) (by decide)).2.1,
   (C10_start_unknown_type_not_atomic (exStateWith (exJob "stopped" "experiment")) "t1" "j1"
      (exJob "stopped" "experiment") (by decide) (by decide) (by decide) (by decide)).2.2.2.1⟩

lemma pipeline_state_facts (now jid : String) (jd : JobData) (s0 : SysState)
    (hty : jd.type = some "posting") :
    (start_job (create_job s0 jid jd now).2 now jid).1 = true
    ∧ lookupJob (start_job (create_job s0 jid jd now).2 now jid).2.jobs jid
        = some (markRunning now (create_job s0 jid jd now).1)
    ∧ (start_job (create_job s0 jid jd now).2 now jid).2.recentPosts = s0.recentPosts := by
  have hlook1 : lookupJob (create_job s0 jid jd now).2.jobs jid
      = some (create_job s0 jid jd now).1 :=
    lookup_storeSet_self s0.jobs jid (create_job s0 jid jd now).1
  have hst0 : ¬(create_job s0 jid jd now).1.status = "running" := by
    simp [create_job]
  have hty0 : (create_job s0 jid jd now).1.type = "posting" := by
    simp [create_job, hty]
  have hstart := start_job_spawn_posting (create_job s0 jid jd now).2 now jid
    (create_job s0 jid jd now).1 hlook1 hst0 hty0
  refine ⟨by rw [hstart], ?_, by rw [hstart]; rfl⟩
  rw [hstart]
  show lookupJob (updateEntries (create_job s0 jid jd now).2.jobs jid (markRunning now)) jid
    = some (markRunning now (create_job s0 jid jd now).1)
  rw [lookup_updateEntries_self, hlook1]
  rfl

/-- C2 (amended): for a posting job with queue [a, b, c] where only the
second post fails, the runner still processes all three items: the log
gains entries for a and c (c in front) and none for b, the failure aborts
nothing — but stats.postsToday ends at 3, because _run_posting_job
increments the counter after every attempted item, not only on success. -/
theorem C2_failed_item_skipped_in_log_but_counted (poster : Nat → PostOutcome)
    (now jid : String) (jd : JobData) (s0 : SysState) (a b c : ContentItem)
    (hitems : jd.settings.approvedContent = [a, b, c])
    (hty : jd.type = some "posting")
    (h0 : (poster 0).success = true)
    (h1 : (poster 1).success = false)
    (h2 : (poster 2).success = true)
    (hcap : s0.recentPosts.length ≤ 48) :
    (run_posting_job true poster (fun _ => none) now jid
        (start_job (create_job s0 jid jd now).2 now jid).2).recentPosts
      = mkPost now (realPostData now c (poster 2))
          :: mkPost now (realPostData now a (poster 0)) :: s0.recentPosts
    ∧ (mkPost now (realPostData now c (poster 2))).content = c.content
    ∧ (mkPost now (realPostData now a (poster 0))).content = a.content
    ∧ (lookupJob (run_posting_job true poster (fun _ => none) now jid
          (start_job (create_job s0 jid jd now).2 now jid).2).jobs jid).map
        (fun j => j.stats.postsToday) = some 3
    ∧ (lookupJob (run_posting_job true poster (fun _ => none) now jid
          (start_job (create_job s0 jid jd now).2 now jid).2).jobs jid).map
        (fun j => j.status) = some "stopped" := by
  obtain ⟨-, hlook2, hrp2⟩ := pipeline_state_facts now jid jd s0 hty
  have hL2 : (start_job (create_job s0 jid jd now).2 now jid).2.recentPosts.length ≤ 50 := by
    rw [hrp2]
    omega
  obtain ⟨hlog, jf, hjf, hjfst, hp, -, -⟩ :=
    run_posting_job_none true poster now jid
      (start_job (create_job s0 jid jd now).2 now jid).2
      (markRunning now (create_job s0 jid jd now).1) hlook2 rfl hL2
  have hac : (markRunning now (create_job s0 jid jd now).1).approved_content = [a, b, c] := by
    show jd.settings.approvedContent = [a, b, c]
    exact hitems
  have hE : entriesRevFrom true poster now 0 [a, b, c]
      = [mkPost now (realPostData now c (poster 2)), mkPost now (realPostData now a (poster 0))] := by
    simp [entriesRevFrom, postEntry, h0, h1, h2]
  refine ⟨?_, rfl, rfl, ?_, ?_⟩
  · rw [hlog, hac, hE, hrp2]
    apply List.take_of_length_le
    simp
    omega
  · rw [hjf, Option.map_some', hp, hac]
    have hp0 : (markRunning now (create_job s0 jid jd now).1).stats.postsToday = 0 := rfl
    rw [hp0]
    rfl
  · rw [hjf, Option.map_some', hjfst]

/-- Counterexample to C2 as stated: with queue A, B, C and the poster
failing exactly on B, postsToday ends at 3, not at the claimed 2 — the
counter is incremented for the failed item as well. -/
theorem C2_counterexample :
    (lookupJob (run_posting_job true exPosterFailSecond (fun _ => none) "t0" "job1"
        (start_job (create_job exEmpty "job1" exJD "t0").2 "t0" "job1").2).jobs "job1").map
      (fun j => j.stats.postsToday) = some 3
    ∧ ¬(lookupJob (run_posting_job true exPosterFailSecond (fun _ => none) "t0" "job1"
        (start_job (create_job exEmpty "job1" exJD "t0").2 "t0" "job1").2).jobs "job1").map
      (fun j => j.stats.postsToday) = some 2 := by
  constructor
  · decide
  · decide

/-- Witness for the amended C2 at the concrete A, B, C scenario: the log
holds C then A (no B), and postsToday is 3. -/
theorem C2_witness :
    (run_posting_job true exPosterFailSecond (fun _ => none) "t0" "job1"
        (start_job (create_job exEmpty "job1" exJD "t0").2 "t0" "job1").2).recentPosts.map
      (fun p => p.content) = ["C", "A"]
    ∧ (lookupJob (run_posting_job true exPosterFailSecond (fun _ => none) "t0" "job1"
        (start_job (create_job exEmpty "job1" exJD "t0").2 "t0" "job1").2).jobs "job1").map
      (fun j => j.stats.postsToday) = some 3 :=
  ⟨by decide,
   (C2_failed_item_skipped_in_log_but_counted exPosterFailSecond "t0" "job1" exJD exEmpty
      (exItem "A") (exItem "B") (exItem "C") rfl rfl rfl rfl rfl (by decide)).2.2.2.1⟩

lemma run_posting_loop_break (avail : Bool) (poster : Nat → PostOutcome)
    (sched : Nat → Option String) (now jid : String) (item : ContentItem)
    (rest : List ContentItem) (i : Nat) (s : SysState) (st : String) (job : Job)
    (hs : sched i = some st) (hstop : ¬st = "running")
    (hj : lookupJob s.jobs jid = some job) :
    run_posting_loop avail poster sched now jid (item :: rest) i s
      = setJobStatus s jid st := by
  simp [run_posting_loop, applySched, hs, lookup_setJobStatus_self, hj, hstop]

lemma run_posting_loop_pausedToStopped (avail : Bool) (poster : Nat → PostOutcome)
    (sched : Nat → Option String) (now jid : String) :
    ∀ (items : List ContentItem) (i : Nat) (s : SysState),
      setJobStatus (run_posting_loop avail poster sched now jid items i s) jid "stopped"
        = setJobStatus
            (run_posting_loop avail poster (pausedToStopped sched) now jid items i s)
            jid "stopped" := by
  intro items
  induction items with
  | nil => intro i s; simp [run_posting_loop]
  | cons item rest ih =>
    intro i s
    cases hsch : sched i with
    | none =>
      have hsch' : pausedToStopped sched i = none := by simp [pausedToStopped, hsch]
      cases hl : lookupJob s.jobs jid with
      | none => simp [run_posting_loop, applySched, hsch, hsch', hl]
      | some job =>
        by_cases hst : job.status = "running"
        · simp only [run_posting_loop, applySched, hsch, hsch', hl, hst, if_true, eq_self_iff_true]
          exact ih (i + 1) _
        · simp [run_posting_loop, applySched, hsch, hsch', hl, hst]
    | some st =>
      have hsch' : pausedToStopped sched i
          = some (if st = "paused" then "stopped" else st) := by
        simp [pausedToStopped, hsch]
      by_cases hpz : st = "paused"
      · cases hl : lookupJob s.jobs jid with
        | none =>
          simp [run_posting_loop, applySched, hsch, hsch', hpz, lookup_setJobStatus_self, hl,
            setJobStatus_setJobStatus]
        | some job =>
          simp [run_posting_loop, applySched, hsch, hsch', hpz, lookup_setJobStatus_self, hl,
            setJobStatus_setJobStatus]
      · have hsch'' : pausedToStopped sched i = some st := by rw [hsch']; simp [hpz]
        cases hl : lookupJob s.jobs jid with
        | none =>
          simp [run_posting_loop, applySched, hsch, hsch'', lookup_setJobStatus_self, hl]
        | some job =>
          by_cases hrun : st = "running"
          · simp only [run_posting_loop, applySched, hsch, hsch'', lookup_setJobStatus_self, hl,
              Option.map_some', hrun, if_true, eq_self_iff_true]
            exact ih (i + 1) _
          · simp [run_posting_loop, applySched, hsch, hsch'', lookup_setJobStatus_self, hl, hrun]

lemma run_replying_loop_pausedToStopped (rposter : Nat → Option PostOutcome)
    (sched : Nat → Option String) (now jid : String) :
    ∀ (items : List ContentItem) (i : Nat) (s : SysState),
      setJobStatus (run_replying_loop rposter sched now jid items i s) jid "stopped"
        = setJobStatus
            (run_replying_loop rposter (pausedToStopped sched) now jid items i s)
            jid "stopped" := by
  intro items
  induction items with
  | nil => intro i s; simp [run_replying_loop]
  | cons item rest ih =>
    intro i s
    cases hsch : sched i with
    | none =>
      have hsch' : pausedToStopped sched i = none := by simp [pausedToStopped, hsch]
      cases hl : lookupJob s.jobs jid with
      | none => simp [run_replying_loop, applySched, hsch, hsch', hl]
      | some job =>
        by_cases hst : job.status = "running"
        · simp only [run_replying_loop, applySched, hsch, hsch', hl, hst, if_true,
            eq_self_iff_true]
          exact ih (i + 1) _
        · simp [run_replying_loop, applySched, hsch, hsch', hl, hst]
    | some st =>
      have hsch' : pausedToStopped sched i
          = some (if st = "paused" then "stopped" else st) := by
        simp [pausedToStopped, hsch]
      by_cases hpz : st = "paused"
      · cases hl : lookupJob s.jobs jid with
        | none =>
          simp [run_replying_loop, applySched, hsch, hsch', hpz, lookup_setJobStatus_self, hl,
            setJobStatus_setJobStatus]
        | some job =>
          simp [run_replying_loop, applySched, hsch, hsch', hpz, lookup_setJobStatus_self, hl,
            setJobStatus_setJobStatus]
      · have hsch'' : pausedToStopped sched i = some st := by rw [hsch']; simp [hpz]
        cases hl : lookupJob s.jobs jid with
        | none =>
          simp [run_replying_loop, applySched, hsch, hsch'', lookup_setJobStatus_self, hl]
        | some job =>
          by_cases hrun : st = "running"
          · simp only [run_replying_loop, applySched, hsch, hsch'', lookup_setJobStatus_self, hl,
              Option.map_some', hrun, if_true, eq_self_iff_true]
            exact ih (i + 1) _
          · simp [run_replying_loop, applySched, hsch, hsch'', lookup_setJobStatus_self, hl, hrun]

lemma run_posting_job_pausedToStopped (avail : Bool) (poster : Nat → PostOutcome)
    (sched : Nat → Option String) (now jid : String) (s : SysState) :
    run_posting_job avail poster sched now jid s
      = run_posting_job avail poster (pausedToStopped sched) now jid s := by
  cases hl : lookupJob s.jobs jid with
  | none => simp [run_posting_job, hl]
  | some job =>
    by_cases hlen : job.approved_content.length = 0
    · simp [run_posting_job, hl, hlen]
    · simp only [run_posting_job, hl, hlen, if_neg]
      exact run_posting_loop_pausedToStopped avail poster sched now jid job.approved_content 0 s

lemma run_replying_job_pausedToStopped (rposter : Nat → Option PostOutcome)
    (sched : Nat → Option String) (now jid : String) (s : SysState) :
    run_replying_job rposter sched now jid s
      = run_replying_job rposter (pausedToStopped sched) now jid s := by
  cases hl : lookupJob s.jobs jid with
  | none => simp [run_replying_job, hl]
  | some job =>
    simp only [run_replying_job, hl]
    exact run_replying_loop_pausedToStopped rposter sched now jid job.approved_content 0 s

lemma run_posting_loop_pause (avail : Bool) (poster : Nat → PostOutcome)
    (now jid st : String) (hstop : ¬st = "running") (k : Nat) :
    ∀ (items : List ContentItem) (i : Nat) (s : SysState) (job : Job),
      i ≤ k →
      lookupJob s.jobs jid = some job →
      job.status = "running" →
      s.recentPosts.length ≤ 50 →
      (run_posting_loop avail poster (pauseSched k st) now jid items i s).recentPosts
          = (entriesRevFrom avail poster now i (items.take (k - i)) ++ s.recentPosts).take 50
        ∧ ∃ jf,
            lookupJob (run_posting_loop avail poster (pauseSched k st) now jid items i s).jobs jid
              = some jf
            ∧ jf.stats.postsToday = job.stats.postsToday + min (k - i) items.length
            ∧ jf.stats.repliesToday = job.stats.repliesToday := by
  intro items
  induction items with
  | nil =>
    intro i s job hik hj hst hL
    refine ⟨?_, job, by simp [run_posting_loop, hj], by simp, rfl⟩
    simp [run_posting_loop, entriesRevFrom, List.take_of_length_le hL]
  | cons item rest ih =>
    intro i s job hik hj hst hL
    by_cases hikeq : i = k
    · have hbrk := run_posting_loop_break avail poster (pauseSched k st) now jid item rest i s
        st job (by simp [pauseSched, hikeq]) hstop hj
      rw [hbrk]
      have hzero : k - i = 0 := by omega
      refine ⟨?_, { job with status := st }, ?_, by simp [hzero], rfl⟩
      · rw [setJobStatus_recentPosts, hzero]
        simp [entriesRevFrom, List.take_of_length_le hL]
      · rw [lookup_setJobStatus_self, hj]
        rfl
    · have hsch : pauseSched k st i = none := by simp [pauseSched, hikeq]
      have hik' : i + 1 ≤ k := by omega
      rw [run_posting_loop_cons avail poster (pauseSched k st) now jid item rest i s job hsch hj hst]
      have hj3 : lookupJob (updateEntries s.jobs jid (bumpPosting now)) jid
          = some (bumpPosting now job) := by
        rw [lookup_updateEntries_self, hj]
        rfl
      have hst3 : (bumpPosting now job).status = "running" := by
        simp [bumpPosting, hst]
      have hL3 : (newLog avail poster now i item s.recentPosts).length ≤ 50 :=
        newLog_length avail poster now i item s.recentPosts hL
      obtain ⟨hlog, jf, hjf, hposts, hreplies⟩ :=
        ih (i + 1)
          { s with recentPosts := newLog avail poster now i item s.recentPosts
                   jobs := updateEntries s.jobs jid (bumpPosting now) }
          (bumpPosting now job) hik' hj3 hst3 hL3
    
      refine ⟨?_, jf, hjf, ?_, ?_⟩
      · rw [hlog]
        dsimp only
        rw [newLog_eq avail poster now i item s.recentPosts hL, append_take_take]
        have hki : k - i = (k - (i + 1)) + 1 := by omega
        have htake : (item :: rest).take (k - i) = item :: rest.take (k - (i + 1)) := by
          rw [hki]
          exact List.take_succ_cons
        rw [htake, entriesRevFrom, List.append_assoc]
      · simp only [bumpPosting] at hposts
        simp only [List.length_cons]
        rw [hposts]
        have hmin : min (k - (i + 1)) rest.length + 1 = min (k - i) (rest.length + 1) := by
          omega
        omega
      · simpa [bumpPosting] using hreplies

lemma run_posting_job_pause (avail : Bool) (poster : Nat → PostOutcome)
    (now jid st : String) (hstop : ¬st = "running") (k : Nat) (s : SysState) (job : Job)
    (hj : lookupJob s.jobs jid = some job) (hst : job.status = "running")
    (hL : s.recentPosts.length ≤ 50) :
    (run_posting_job avail poster (pauseSched k st) now jid s).recentPosts
        = (entriesRevFrom avail poster now 0 (job.approved_content.take k)
            ++ s.recentPosts).take 50
    ∧ (lookupJob (run_posting_job avail poster (pauseSched k st) now jid s).jobs jid).map
        (fun j => j.stats.postsToday)
      = some (job.stats.postsToday + min k job.approved_content.length) := by
  by_cases hlen : job.approved_content.length = 0
  · have hnil : job.approved_content = [] := List.eq_nil_of_length_eq_zero hlen
    constructor
    · simp [run_posting_job, hj, hlen, hnil, entriesRevFrom, setJobStatus_recentPosts,
        List.take_of_length_le hL]
    · simp [run_posting_job, hj, hlen, hnil, lookup_setJobStatus_self]
  · obtain ⟨hlog, jf, hjf, hposts, hreplies⟩ :=
      run_posting_loop_pause avail poster now jid st hstop k job.approved_content 0 s job
        (Nat.zero_le k) hj hst hL
    have hred : run_posting_job avail poster (pauseSched k st) now jid s
        = setJobStatus
            (run_posting_loop avail poster (pauseSched k st) now jid job.approved_content 0 s)
            jid "stopped" := by
      simp [run_posting_job, hj, hlen]
    constructor
    · rw [hred, setJobStatus_recentPosts, hlog, Nat.sub_zero]
    · rw [hred, lookup_setJobStatus_self, hjf]
      show some jf.stats.postsToday = _
      rw [hposts, Nat.sub_zero]

/-- C5: the runner re-checks the job's status before each queued item and
leaves the loop as soon as the status is not running.  A status of paused
makes the run end in exactly the same state as a status of stopped (for
both runners, under any interference schedule), and after an external
write of paused (or any non-running status) before the k-th check, only
the first k items are processed — postsToday grows by min k N and only
their entries reach the log. -/
theorem C5_pause_exits_like_stop (avail : Bool) (poster : Nat → PostOutcome)
    (rposter : Nat → Option PostOutcome) (now jid : String) :
    (∀ (sched : Nat → Option String) (s : SysState),
        run_posting_job avail poster sched now jid s
          = run_posting_job avail poster (pausedToStopped sched) now jid s)
    ∧ (∀ (sched : Nat → Option String) (s : SysState),
        run_replying_job rposter sched now jid s
          = run_replying_job rposter (pausedToStopped sched) now jid s)
    ∧ ∀ (k : Nat) (s : SysState) (job : Job),
        lookupJob s.jobs jid = some job → job.status = "running" →
        s.recentPosts.length ≤ 50 →
        (run_posting_job avail poster (pauseSched k "paused") now jid s).recentPosts
            = (entriesRevFrom avail poster now 0 (job.approved_content.take k)
                ++ s.recentPosts).take 50
        ∧ (lookupJob (run_posting_job avail poster (pauseSched k "paused") now jid s).jobs
            jid).map (fun j => j.stats.postsToday)
          = some (job.stats.postsToday + min k job.approved_content.length) :=
  ⟨fun sched s => run_posting_job_pausedToStopped avail poster sched now jid s,
   fun sched s => run_replying_job_pausedToStopped rposter sched now jid s,
   fun k s job hj hst hL =>
     run_posting_job_pause avail poster now jid "paused" (by decide) k s job hj hst hL⟩

/-- Witness for C5: pausing the A, B, C job before its second check stops
the run after one posted item, and the paused run equals the stopped run. -/
theorem C5_witness :
    run_posting_job true exPoster (pauseSched 1 "paused") "t0" "j1" (exStateWith exJobQ)
      = run_posting_job true exPoster (pausedToStopped (pauseSched 1 "paused")) "t0" "j1"
          (exStateWith exJobQ)
    ∧ (lookupJob (run_posting_job true exPoster (pauseSched 1 "paused") "t0" "j1"
          (exStateWith exJobQ)).jobs "j1").map (fun j => j.stats.postsToday)
      = some (0 + min 1 3) :=
  ⟨(C5_pause_exits_like_stop true exPoster (fun _ => none) "t0" "j1").1
      (pauseSched 1 "paused") (exStateWith exJobQ),
   ((C5_pause_exits_like_stop true exPoster (fun _ => none) "t0" "j1").2.2 1
      (exStateWith exJobQ) exJobQ (by decide) rfl (by decide)).2⟩

lemma applySched_lookup_isSome (sched : Nat → Option String) (i : Nat) (jid : String)
    (s : SysState) :
    (lookupJob (applySched sched i jid s).jobs jid).isSome
      = (lookupJob s.jobs jid).isSome := by
  cases hs : sched i with
  | none => simp [applySched, hs]
  | some st => simp [applySched, hs, lookup_setJobStatus_self]

lemma run_posting_loop_preserves_job (avail : Bool) (poster : Nat → PostOutcome)
    (sched : Nat → Option String) (now jid : String) :
    ∀ (items : List ContentItem) (i : Nat) (s : SysState),
      (lookupJob s.jobs jid).isSome = true →
      (lookupJob (run_posting_loop avail poster sched now jid items i s).jobs jid).isSome
        = true := by
  intro items
  induction items with
  | nil =>
    intro i s h
    simpa [run_posting_loop] using h
  | cons item rest ih =>
    intro i s h
    have h1 : (lookupJob (applySched sched i jid s).jobs jid).isSome = true := by
      rw [applySched_lookup_isSome]
      exact h
    cases hl : lookupJob (applySched sched i jid s).jobs jid with
    | none => rw [hl] at h1; simp at h1
    | some job =>
      by_cases hst : job.status = "running"
      · rcases Bool.eq_false_or_eq_true avail with hav | hav
        · subst hav
          by_cases hsc : (poster i).success = true
          · simp only [run_posting_loop, hl, hst, hsc, if_true, if_false,
              eq_self_iff_true, Bool.false_eq_true]
            apply ih
            simp [lookup_updateEntries_self, hl]
          · simp only [run_posting_loop, hl, hst, hsc, if_true, if_false,
              eq_self_iff_true, Bool.false_eq_true]
            apply ih
            simp [lookup_updateEntries_self, hl]
        · subst hav
          by_cases hsc : (poster i).success = true
          · simp only [run_posting_loop, hl, hst, hsc, if_true, if_false,
              eq_self_iff_true, Bool.false_eq_true]
            apply ih
            simp [lookup_updateEntries_self, hl]
          · simp only [run_posting_loop, hl, hst, hsc, if_true, if_false,
              eq_self_iff_true, Bool.false_eq_true]
            apply ih
            simp [lookup_updateEntries_self, hl]
      · simp only [run_posting_loop, hl, hst, if_false]
        rw [hl] at h1
        exact h1

lemma run_replying_loop_preserves_job (rposter : Nat → Option PostOutcome)
    (sched : Nat → Option String) (now jid : String) :
    ∀ (items : List ContentItem) (i : Nat) (s : SysState),
      (lookupJob s.jobs jid).isSome = true →
      (lookupJob (run_replying_loop rposter sched now jid items i s).jobs jid).isSome
        = true := by
  intro items
  induction items with
  | nil =>
    intro i s h
    simpa [run_replying_loop] using h
  | cons item rest ih =>
    intro i s h
    have h1 : (lookupJob (applySched sched i jid s).jobs jid).isSome = true := by
      rw [applySched_lookup_isSome]
      exact h
    cases hl : lookupJob (applySched sched i jid s).jobs jid with
    | none => rw [hl] at h1; simp at h1
    | some job =>
      by_cases hst : job.status = "running"
      · cases hrp : rposter i with
        | none =>
          simp only [run_replying_loop, hl, hst, hrp, if_true, eq_self_iff_true]
          apply ih
          exact h1
        | some r =>
          by_cases hsc : r.success = true
          · simp only [run_replying_loop, hl, hst, hrp, hsc, if_true, eq_self_iff_true]
            apply ih
            simp [lookup_updateEntries_self, hl]
          · simp only [run_replying_loop, hl, hst, hrp, hsc, if_true, if_false,
              eq_self_iff_true, Bool.false_eq_true]
            apply ih
            exact h1
      · simp only [run_replying_loop, hl, hst, if_false]
        rw [hl] at h1
        exact h1


/-- C9: whenever a runner exits — queue drained, empty queue, or a
non-running status (paused included) observed at a check — its final
action writes status stopped: for every interference schedule, both
runners leave the job with status stopped, so paused is never the final
status of a job whose runner has exited. -/
theorem C9_runner_always_ends_stopped (avail : Bool) (poster : Nat → PostOutcome)
    (rposter : Nat → Option PostOutcome) (sched1 sched2 : Nat → Option String)
    (now jid : String) (s : SysState) (job : Job)
    (hj : lookupJob s.jobs jid = some job) :
    (lookupJob (run_posting_job avail poster sched1 now jid s).jobs jid).map
        (fun j => j.status) = some "stopped"
    ∧ (lookupJob (run_replying_job rposter sched2 now jid s).jobs jid).map
        (fun j => j.status) = some "stopped" := by
  constructor
  · by_cases hlen : job.approved_content.length = 0
    · simp [run_posting_job, hj, hlen, lookup_setJobStatus_self]
    · have hpres := run_posting_loop_preserves_job avail poster sched1 now jid
        job.approved_content 0 s (by simp [hj])
      obtain ⟨jf, hjf⟩ := Option.isSome_iff_exists.mp hpres
      simp [run_posting_job, hj, hlen, lookup_setJobStatus_self, hjf]
  · have hpres := run_replying_loop_preserves_job rposter sched2 now jid
      job.approved_content 0 s (by simp [hj])
    obtain ⟨jf, hjf⟩ := Option.isSome_iff_exists.mp hpres
    simp [run_replying_job, hj, lookup_setJobStatus_self, hjf]

/-- Witness for C9: with the A, B, C job and a schedule pausing before the
second check, both runners end with the job stopped. -/
theorem C9_witness :
    (lookupJob (run_posting_job true exPoster (pauseSched 1 "paused") "t0" "j1"
        (exStateWith exJobQ)).jobs "j1").map (fun j => j.status) = some "stopped"
    ∧ (lookupJob (run_replying_job (fun _ => none) (pauseSched 1 "paused") "t0" "j1"
        (exStateWith exJobQ)).jobs "j1").map (fun j => j.status) = some "stopped" :=
  C9_runner_always_ends_stopped true exPoster (fun _ => none)
    (pauseSched 1 "paused") (pauseSched 1 "paused") "t0" "j1"
    (exStateWith exJobQ) exJobQ (by decide)
